import Mathlib

/-!
# Verification of MistOCR's formatting layer and page-range parser

Shallow embedding of `mistocr/cli.py` (the `parse_pages` function and the
output-format resolution in `main`) and `mistocr/formatter.py`
(`format_as_markdown`, `format_as_text`, `format_as_pdf`).

Python strings are modelled as `List Char` in the parser (character-level
processing) and as `String` in the formatters.  Python `int` is modelled as
`Int`.  Filesystem effects of the formatters are reified as an explicit
effect list.  Machine-level concerns (unicode whitespace beyond ASCII,
pathlib path normalisation) are modelled by their ASCII/plain-concatenation
behaviour, which is what every claim exercises.
-/

namespace MistOCR

/-! ## Python string primitives -/

/-- ASCII whitespace recognised by Python's `str.strip`. -/
def isPySpace (c : Char) : Bool :=
  c = ' ' || c = '\t' || c = '\n' || c = '\r' || c = '\x0b' || c = '\x0c'

/-- Python `s.strip()`: remove leading and trailing whitespace. -/
def pyStrip (s : List Char) : List Char :=
  ((s.dropWhile isPySpace).reverse.dropWhile isPySpace).reverse

/-- Python `s.split(',')`: split at every comma; `"".split(',') == [""]`. -/
def pySplitComma (s : List Char) : List (List Char) :=
  s.foldr
    (fun c acc =>
      if c = ',' then [] :: acc
      else match acc with
        | a :: t => (c :: a) :: t
        | [] => [[c]])
    [[]]

/-- Python `part.split('-', 1)` destructured into the two sides of the first
dash (the callers only use it under an `'-' in part` guard). -/
def splitFirstDash : List Char → List Char × List Char
  | [] => ([], [])
  | c :: rest =>
    if c = '-' then ([], rest)
    else
      let p := splitFirstDash rest
      (c :: p.1, p.2)

/-- Numeric value of a decimal digit character. -/
def digitVal (c : Char) : Nat := c.toNat - 48

/-- Tail of Python's `int` literal grammar after the first digit: digits with
single underscores allowed between digits. -/
def pyDigitsGo (acc : Nat) : List Char → Option Nat
  | [] => some acc
  | [c] => if c.isDigit then some (acc * 10 + digitVal c) else none
  | c :: d :: rest =>
    if c.isDigit then pyDigitsGo (acc * 10 + digitVal c) (d :: rest)
    else if c = '_' then
      if d.isDigit then pyDigitsGo (acc * 10 + digitVal d) rest else none
    else none

/-- Unsigned part of Python's `int()` string parsing: one leading digit, then
digits possibly separated by single underscores. -/
def pyUDigits : List Char → Option Nat
  | [] => none
  | c :: rest => if c.isDigit then pyDigitsGo (digitVal c) rest else none

/-- Python `int(s)` on a string: strip whitespace, optional single sign,
decimal digits (with underscore separators); `none` models `ValueError`. -/
def pyIntStr (s : List Char) : Option Int :=
  match pyStrip s with
  | [] => none
  | c :: rest =>
    if c = '+' then (pyUDigits rest).map Int.ofNat
    else if c = '-' then (pyUDigits rest).map (fun n => -(n : Int))
    else (pyUDigits (c :: rest)).map Int.ofNat

/-- Python `list(range(start, stop))` for `stop = en + 1`. -/
def pyRange (start en : Int) : List Int :=
  (List.range (en + 1 - start).toNat).map (fun (k : Nat) => start + (k : Int))

/-! ## `parse_pages` (cli.py, lines 18-82) -/

/-- One iteration of the `for part in pages_str.split(',')` loop body of
`parse_pages`: validate one comma-separated token and expand it, or raise
`click.BadParameter` with the source's message. -/
def parsePart (part0 : List Char) : Except String (List Int) :=
  let part := pyStrip part0
  if part = [] then .error "Empty page specification"
  else if '-' ∈ part then
    let p := splitFirstDash part
    let start_str := pyStrip p.1
    let end_str := pyStrip p.2
    if start_str = [] ∨ end_str = [] then
      .error ("Invalid page range: '" ++ String.mk part ++ "'")
    else
      match pyIntStr start_str, pyIntStr end_str with
      | some start, some en =>
        if en < start then
          .error ("Invalid page range (end < start): '" ++ String.mk part ++ "'")
        else .ok (pyRange start en)
      | _, _ => .error ("Non-integer page range: '" ++ String.mk part ++ "'")
  else
    match pyIntStr part with
    | some n => .ok [n]
    | none => .error ("Invalid page number: '" ++ String.mk part ++ "'")

/-- The accumulation of the token loop of `parse_pages`: first raised error
wins, otherwise the per-token expansions are concatenated in order. -/
def parseParts : List (List Char) → Except String (List Int)
  | [] => .ok []
  | p :: rest =>
    match parsePart p with
    | .error e => .error e
    | .ok l =>
      match parseParts rest with
      | .error e => .error e
      | .ok ls => .ok (l ++ ls)

/-- `parse_pages` (cli.py lines 18-82): `none`/empty input means "all pages";
otherwise split on commas and expand every token, raising
`click.BadParameter` (modelled as `Except.error`) on the first bad token. -/
def parse_pages : Option (List Char) → Except String (Option (List Int))
  | none => .ok none
  | some s =>
    if s = [] then .ok none
    else
      match parseParts (pySplitComma s) with
      | .error e => .error e
      | .ok l => .ok (some l)

/-- The message `parse_pages` raises on a given token (empty when the token
is in fact accepted). -/
def partErrMsg (part : List Char) : String :=
  match parsePart part with
  | .error e => e
  | .ok _ => ""

instance exceptDecEq {ε α : Type} [DecidableEq ε] [DecidableEq α] :
    DecidableEq (Except ε α) := fun x y =>
  match x, y with
  | .ok a, .ok b =>
    if h : a = b then isTrue (by rw [h]) else
      isFalse (fun hc => h (by cases hc; rfl))
  | .error a, .error b =>
    if h : a = b then isTrue (by rw [h]) else
      isFalse (fun hc => h (by cases hc; rfl))
  | .ok _, .error _ => isFalse (fun hc => Except.noConfusion hc)
  | .error _, .ok _ => isFalse (fun hc => Except.noConfusion hc)

/-! ## Claim-side grammar for page tokens (spec §4.1) -/

/-- A syntactically valid page token as claim C4 describes it: a single
non-negative integer, or a dash-separated pair with `start ≤ end`. -/
inductive PageToken
  | single (n : Nat)
  | rng (a b : Nat)
deriving DecidableEq

/-- Value of a plain decimal digit string. -/
def natDigits (t : List Char) : Nat :=
  t.foldl (fun a c => a * 10 + digitVal c) 0

/-- Claim-side token recogniser, following C4's words: after stripping
surrounding whitespace a token is a non-empty digit string, or a dash
separating two non-empty digit strings (whitespace around the dash allowed)
whose first value is at most the second. -/
def specToken (part : List Char) : Option PageToken :=
  let t := pyStrip part
  if t ≠ [] ∧ t.all (fun c => c.isDigit) then some (.single (natDigits t))
  else if '-' ∈ t then
    let p := splitFirstDash t
    let a := pyStrip p.1
    let b := pyStrip p.2
    if a ≠ [] ∧ a.all (fun c => c.isDigit) ∧ b ≠ [] ∧ b.all (fun c => c.isDigit) ∧
        natDigits a ≤ natDigits b then
      some (.rng (natDigits a) (natDigits b))
    else none
  else none

/-- Claim-side expansion of a token: a singleton, or the inclusive range in
ascending order. -/
def tokenExpand : PageToken → List Int
  | .single n => [(n : Int)]
  | .rng a b => (List.range (b + 1 - a)).map (fun (k : Nat) => (a : Int) + (k : Int))

/-- Claim-side malformedness of a token, following C5's categories: empty
token, a range missing one side, a non-integer literal (in the sense of
Python `int`), or a range with `end < start`. -/
def specMalformed (part : List Char) : Bool :=
  let t := pyStrip part
  if t = [] then true
  else if '-' ∈ t then
    let p := splitFirstDash t
    let a := pyStrip p.1
    let b := pyStrip p.2
    if a = [] ∨ b = [] then true
    else
      match pyIntStr a, pyIntStr b with
      | some st, some en => decide (en < st)
      | _, _ => true
  else (pyIntStr t).isNone

/-! ## Parser lemmas -/

theorem dropWhile_eq_self_of {p : Char → Bool} {t : List Char}
    (h : ∀ c ∈ t, p c = false) : t.dropWhile p = t := by
  cases t with
  | nil => rfl
  | cons c rest =>
    have hc := h c (List.mem_cons_self c rest)
    simp [List.dropWhile_cons, hc]

theorem pyStrip_eq_self {t : List Char} (h : ∀ c ∈ t, isPySpace c = false) :
    pyStrip t = t := by
  unfold pyStrip
  rw [dropWhile_eq_self_of h, dropWhile_eq_self_of, List.reverse_reverse]
  intro c hc
  exact h c (List.mem_reverse.mp hc)

theorem mem_of_mem_pyStrip {c : Char} {s : List Char} (h : c ∈ pyStrip s) : c ∈ s := by
  unfold pyStrip at h
  rw [List.mem_reverse] at h
  have h1 := (List.dropWhile_sublist (l := (s.dropWhile isPySpace).reverse)
    isPySpace).mem h
  rw [List.mem_reverse] at h1
  exact (List.dropWhile_sublist (l := s) isPySpace).mem h1

theorem isPySpace_of_isDigit {c : Char} (h : c.isDigit = true) : isPySpace c = false := by
  by_contra hs
  rw [Bool.not_eq_false] at hs
  unfold isPySpace at hs
  simp only [Bool.or_eq_true, decide_eq_true_eq] at hs
  rcases hs with (((((rfl | rfl) | rfl) | rfl) | rfl) | rfl) <;> exact absurd h (by decide)

theorem pyDigitsGo_digits : ∀ (t : List Char) (acc : Nat),
    (∀ c ∈ t, c.isDigit = true) →
    pyDigitsGo acc t = some (t.foldl (fun a c => a * 10 + digitVal c) acc)
  | [], _, _ => rfl
  | [c], acc, h => by
    have hc := h c (List.mem_cons_self c [])
    show (if c.isDigit = true then some (acc * 10 + digitVal c) else none) =
      some (List.foldl (fun a c => a * 10 + digitVal c) acc [c])
    rw [if_pos hc]
    rfl
  | c :: d :: rest, acc, h => by
    have hc := h c (List.mem_cons_self c (d :: rest))
    have hrec := pyDigitsGo_digits (d :: rest) (acc * 10 + digitVal c)
      (fun x hx => h x (List.mem_cons_of_mem c hx))
    show (if c.isDigit = true then pyDigitsGo (acc * 10 + digitVal c) (d :: rest)
      else if c = '_' then
        if d.isDigit = true then pyDigitsGo (acc * 10 + digitVal d) rest else none
      else none) = some (List.foldl (fun a c => a * 10 + digitVal c) acc (c :: d :: rest))
    rw [if_pos hc, hrec]
    rfl

theorem pyUDigits_digits {t : List Char} (hne : t ≠ [])
    (h : ∀ c ∈ t, c.isDigit = true) : pyUDigits t = some (natDigits t) := by
  cases t with
  | nil => exact absurd rfl hne
  | cons c rest =>
    rw [pyUDigits, if_pos (h c (List.mem_cons_self c rest)),
      pyDigitsGo_digits rest (digitVal c) (fun d hd => h d (List.mem_cons_of_mem c hd))]
    unfold natDigits
    rw [List.foldl_cons]
    norm_num

theorem pyIntStr_digits {t : List Char} (hne : t ≠ [])
    (h : ∀ c ∈ t, c.isDigit = true) : pyIntStr t = some ((natDigits t : Nat) : Int) := by
  have hstrip : pyStrip t = t :=
    pyStrip_eq_self (fun c hc => isPySpace_of_isDigit (h c hc))
  cases t with
  | nil => exact absurd rfl hne
  | cons c rest =>
    have hc : c.isDigit = true := h c (List.mem_cons_self c rest)
    have hplus : ¬(c = '+') := fun hcp => by rw [hcp] at hc; exact absurd hc (by decide)
    have hminus : ¬(c = '-') := fun hcm => by rw [hcm] at hc; exact absurd hc (by decide)
    unfold pyIntStr
    rw [hstrip]
    simp only [if_neg hplus, if_neg hminus]
    rw [pyUDigits_digits hne h]
    rfl

theorem dash_notMem_allDigits {t : List Char} (h : ∀ c ∈ t, c.isDigit = true) :
    ¬('-' ∈ t) := fun hm => absurd (h '-' hm) (by decide)

theorem dash_notMem_splitFirstDash_fst (t : List Char) :
    ¬('-' ∈ (splitFirstDash t).1) := by
  induction t with
  | nil => simp [splitFirstDash]
  | cons c rest ih =>
    by_cases hc : c = '-'
    · simp [splitFirstDash, hc]
    · simp only [splitFirstDash, if_neg hc, List.mem_cons]
      rintro (rfl | hm)
      · exact hc rfl
      · exact ih hm

theorem pyRange_eq_tokenExpand {a b : Nat} :
    pyRange (a : Int) (b : Int) = tokenExpand (.rng a b) := by
  unfold pyRange tokenExpand
  have : ((b : Int) + 1 - (a : Int)).toNat = b + 1 - a := by omega
  rw [this]

/-- Core soundness of the token loop body against the claim-side grammar:
on any token `specToken` accepts, `parsePart` succeeds with exactly that
token's expansion. -/
theorem parsePart_of_specToken {part : List Char} {tok : PageToken}
    (h : specToken part = some tok) : parsePart part = .ok (tokenExpand tok) := by
  unfold specToken at h
  simp only at h
  by_cases h1 : pyStrip part ≠ [] ∧ (pyStrip part).all (fun c => c.isDigit) = true
  · rw [if_pos h1] at h
    have htok : tok = .single (natDigits (pyStrip part)) := by
      cases h; rfl
    have hdig : ∀ c ∈ pyStrip part, c.isDigit = true := by
      intro c hc; exact List.all_eq_true.mp h1.2 c hc
    unfold parsePart
    simp only [if_neg (by simpa using h1.1), if_neg (dash_notMem_allDigits hdig)]
    rw [pyIntStr_digits h1.1 hdig]
    rw [htok]
    rfl
  · rw [if_neg h1] at h
    by_cases h2 : '-' ∈ pyStrip part
    · rw [if_pos h2] at h
      by_cases h3 : pyStrip (splitFirstDash (pyStrip part)).1 ≠ [] ∧
          (pyStrip (splitFirstDash (pyStrip part)).1).all (fun c => c.isDigit) = true ∧
          pyStrip (splitFirstDash (pyStrip part)).2 ≠ [] ∧
          (pyStrip (splitFirstDash (pyStrip part)).2).all (fun c => c.isDigit) = true ∧
          natDigits (pyStrip (splitFirstDash (pyStrip part)).1) ≤
            natDigits (pyStrip (splitFirstDash (pyStrip part)).2)
      · rw [if_pos h3] at h
        obtain ⟨ha, hda, hb, hdb, hle⟩ := h3
        have htok : tok = .rng (natDigits (pyStrip (splitFirstDash (pyStrip part)).1))
            (natDigits (pyStrip (splitFirstDash (pyStrip part)).2)) := by
          cases h; rfl
        have hdiga : ∀ c ∈ pyStrip (splitFirstDash (pyStrip part)).1, c.isDigit = true :=
          fun c hc => List.all_eq_true.mp hda c hc
        have hdigb : ∀ c ∈ pyStrip (splitFirstDash (pyStrip part)).2, c.isDigit = true :=
          fun c hc => List.all_eq_true.mp hdb c hc
        unfold parsePart
        simp only [if_neg (by simpa using List.ne_nil_of_mem h2), if_pos h2]
        rw [if_neg (by push_neg; exact ⟨ha, hb⟩)]
        rw [pyIntStr_digits ha hdiga, pyIntStr_digits hb hdigb]
        have hnlt : ¬((natDigits (pyStrip (splitFirstDash (pyStrip part)).2) : Int) <
            (natDigits (pyStrip (splitFirstDash (pyStrip part)).1) : Int)) := by
          exact_mod_cast not_lt.mpr hle
        show (if ((natDigits (pyStrip (splitFirstDash (pyStrip part)).2) : Nat) : Int) <
            ((natDigits (pyStrip (splitFirstDash (pyStrip part)).1) : Nat) : Int) then _
          else Except.ok (pyRange
            ((natDigits (pyStrip (splitFirstDash (pyStrip part)).1) : Nat) : Int)
            ((natDigits (pyStrip (splitFirstDash (pyStrip part)).2) : Nat) : Int))) =
          Except.ok (tokenExpand tok)
        rw [htok, pyRange_eq_tokenExpand, if_neg hnlt]
      · rw [if_neg h3] at h; exact absurd h (by simp)
    · rw [if_neg h2] at h; exact absurd h (by simp)

theorem parseParts_of_valid {parts : List (List Char)} {toks : List PageToken}
    (h : parts.map specToken = toks.map some) :
    parseParts parts = .ok ((toks.map tokenExpand).flatten) := by
  induction parts generalizing toks with
  | nil =>
    cases toks with
    | nil => rfl
    | cons t ts => simp at h
  | cons p ps ih =>
    cases toks with
    | nil => simp at h
    | cons t ts =>
      simp only [List.map_cons, List.cons.injEq] at h
      rw [parseParts, parsePart_of_specToken h.1, ih h.2]
      simp

/-- C4: on every valid page-range string, `parse_pages` returns the ordered
concatenation of each token's expansion; `None` and `""` mean all pages;
the spec's concrete examples evaluate as stated. -/
theorem parse_pages_valid_spec :
    (∀ s toks, (pySplitComma s).map specToken = List.map Option.some toks →
      parse_pages (some s) = .ok (some ((toks.map tokenExpand).flatten)))
    ∧ parse_pages none = .ok none
    ∧ parse_pages (some "".toList) = .ok none
    ∧ parse_pages (some "1,3-5,7".toList) = .ok (some [1, 3, 4, 5, 7])
    ∧ parse_pages (some "0-2".toList) = .ok (some [0, 1, 2]) := by
  refine ⟨?_, rfl, by decide, by decide, by decide⟩
  intro s toks h
  by_cases hs : s = []
  · subst hs
    have : specToken [] = none := by decide
    cases toks with
    | nil => simp [pySplitComma] at h
    | cons t ts =>
      simp only [pySplitComma, List.foldr_nil, List.map_cons, List.map_nil,
        List.cons.injEq, this] at h
      exact absurd h.1 (by simp)
  · simp only [parse_pages]
    rw [if_neg hs, parseParts_of_valid h]

/-- C4 witness: a concrete valid string with surrounding whitespace,
expanded through the general theorem. -/
theorem parse_pages_valid_spec_witness :
    parse_pages (some " 2 , 10-12 ".toList) = .ok (some [2, 10, 11, 12]) := by
  have h := parse_pages_valid_spec.1 (" 2 , 10-12 ".toList)
    [PageToken.single 2, PageToken.rng 10 12] (by decide)
  simpa using h

theorem infix_quoted (pre : String) (t : List Char) (suf : String) :
    List.IsInfix t (pre ++ String.mk t ++ suf).toList :=
  ⟨pre.toList, suf.toList, by simp [String.toList, String.data_append]⟩

theorem partErrMsg_of_error {p : List Char} {e : String}
    (h : parsePart p = .error e) : partErrMsg p = e := by
  unfold partErrMsg
  rw [h]

/-- On every token C5 classifies as malformed, the loop body raises, and for a
non-empty token the raised message quotes the (stripped) token. -/
theorem parsePart_error_of_malformed {p : List Char} (h : specMalformed p = true) :
    (∃ e, parsePart p = .error e) ∧
      (pyStrip p ≠ [] → List.IsInfix (pyStrip p) (partErrMsg p).toList) := by
  unfold specMalformed at h
  simp only at h
  unfold parsePart
  by_cases h1 : pyStrip p = []
  · rw [if_pos h1]
    exact ⟨⟨"Empty page specification", rfl⟩, fun hne => absurd h1 hne⟩
  · rw [if_neg h1] at h ⊢
    by_cases h2 : '-' ∈ pyStrip p
    · rw [if_pos h2] at h ⊢
      by_cases h3 : pyStrip (splitFirstDash (pyStrip p)).1 = [] ∨
          pyStrip (splitFirstDash (pyStrip p)).2 = []
      · rw [if_pos h3]
        refine ⟨⟨_, rfl⟩, fun _ => ?_⟩
        rw [partErrMsg_of_error (e := "Invalid page range: '" ++ String.mk (pyStrip p) ++ "'")]
        · exact infix_quoted _ _ _
        · unfold parsePart
          rw [if_neg h1, if_pos h2, if_pos h3]
      · rw [if_neg h3] at h ⊢
        cases hsa : pyIntStr (pyStrip (splitFirstDash (pyStrip p)).1) with
        | none =>
          refine ⟨⟨_, rfl⟩, fun _ => ?_⟩
          rw [partErrMsg_of_error
            (e := "Non-integer page range: '" ++ String.mk (pyStrip p) ++ "'")]
          · exact infix_quoted _ _ _
          · unfold parsePart
            rw [if_neg h1, if_pos h2, if_neg h3, hsa]
        | some st =>
          cases hsb : pyIntStr (pyStrip (splitFirstDash (pyStrip p)).2) with
          | none =>
            refine ⟨⟨_, rfl⟩, fun _ => ?_⟩
            rw [partErrMsg_of_error
              (e := "Non-integer page range: '" ++ String.mk (pyStrip p) ++ "'")]
            · exact infix_quoted _ _ _
            · unfold parsePart
              rw [if_neg h1, if_pos h2, if_neg h3, hsa, hsb]
          | some en =>
            have hlt : en < st := by
              rw [hsa, hsb] at h
              exact of_decide_eq_true h
            have hval : parsePart p = .error
                ("Invalid page range (end < start): '" ++ String.mk (pyStrip p) ++ "'") := by
              unfold parsePart
              rw [if_neg h1, if_pos h2, if_neg h3, hsa, hsb]
              show (if en < st then
                  Except.error ("Invalid page range (end < start): '" ++
                    String.mk (pyStrip p) ++ "'")
                else Except.ok (pyRange st en)) = _
              rw [if_pos hlt]
            refine ⟨⟨"Invalid page range (end < start): '" ++
              String.mk (pyStrip p) ++ "'", ?_⟩, fun _ => ?_⟩
            · show (if en < st then
                  Except.error ("Invalid page range (end < start): '" ++
                    String.mk (pyStrip p) ++ "'")
                else Except.ok (pyRange st en)) = _
              rw [if_pos hlt]
            · rw [partErrMsg_of_error hval]
              exact infix_quoted _ _ _
    · rw [if_neg h2] at h ⊢
      cases hpi : pyIntStr (pyStrip p) with
      | none =>
        refine ⟨⟨_, rfl⟩, fun _ => ?_⟩
        rw [partErrMsg_of_error
          (e := "Invalid page number: '" ++ String.mk (pyStrip p) ++ "'")]
        · exact infix_quoted _ _ _
        · unfold parsePart
          rw [if_neg h1, if_neg h2, hpi]
      | some n =>
        rw [hpi] at h
        simp at h

/-- On every token C5 does not classify as malformed, the loop body succeeds. -/
theorem parsePart_ok_of_not_malformed {p : List Char} (h : specMalformed p = false) :
    ∃ l, parsePart p = .ok l := by
  unfold specMalformed at h
  simp only at h
  unfold parsePart
  by_cases h1 : pyStrip p = []
  · rw [if_pos h1] at h
    exact absurd h (by simp)
  · rw [if_neg h1] at h ⊢
    by_cases h2 : '-' ∈ pyStrip p
    · rw [if_pos h2] at h ⊢
      by_cases h3 : pyStrip (splitFirstDash (pyStrip p)).1 = [] ∨
          pyStrip (splitFirstDash (pyStrip p)).2 = []
      · rw [if_pos h3] at h
        exact absurd h (by simp)
      · rw [if_neg h3] at h ⊢
        cases hsa : pyIntStr (pyStrip (splitFirstDash (pyStrip p)).1) with
        | none =>
          rw [hsa] at h
          exact absurd (show (true : Bool) = false from h) (by decide)
        | some st =>
          rw [hsa] at h
          cases hsb : pyIntStr (pyStrip (splitFirstDash (pyStrip p)).2) with
          | none =>
            rw [hsb] at h
            exact absurd (show (true : Bool) = false from h) (by decide)
          | some en =>
            rw [hsb] at h
            have hnlt : ¬(en < st) :=
              of_decide_eq_false (show decide (en < st) = false from h)
            refine ⟨pyRange st en, ?_⟩
            show (if en < st then
                Except.error ("Invalid page range (end < start): '" ++
                  String.mk (pyStrip p) ++ "'")
              else Except.ok (pyRange st en)) = _
            rw [if_neg hnlt]
    · rw [if_neg h2] at h ⊢
      cases hpi : pyIntStr (pyStrip p) with
      | none =>
        rw [hpi] at h
        exact absurd (show (true : Bool) = false from h) (by decide)
      | some n =>
        exact ⟨[n], rfl⟩

theorem parseParts_first_error : ∀ (parts : List (List Char)) (k : Nat)
    (part : List Char), parts.get? k = some part → specMalformed part = true →
    (∀ j, j < k → specMalformed (parts.getD j []) = false) →
    parseParts parts = .error (partErrMsg part)
  | [], k, part, hget, _, _ => by simp at hget
  | p :: ps, 0, part, hget, hm, _ => by
    obtain rfl : p = part := by simpa using hget
    obtain ⟨⟨e, he⟩, _⟩ := parsePart_error_of_malformed hm
    simp only [parseParts]
    rw [he, partErrMsg_of_error he]
  | p :: ps, k + 1, part, hget, hm, hmin => by
    have hp : specMalformed p = false := hmin 0 (Nat.succ_pos k)
    obtain ⟨l, hl⟩ := parsePart_ok_of_not_malformed hp
    have ih := parseParts_first_error ps k part (by simpa using hget) hm
      (fun j hj => hmin (j + 1) (Nat.succ_lt_succ hj))
    simp only [parseParts]
    rw [hl]
    show (match parseParts ps with
      | .error e => Except.error e
      | .ok ls => Except.ok (l ++ ls)) = Except.error (partErrMsg part)
    rw [ih]

/-- C5: on every non-empty page string whose first malformed token (in C5's
categories: empty token, non-integer literal, range missing a side, range
with end before start) sits at position `k`, `parse_pages` fails with that
token's `click.BadParameter` message — no partial list is returned — and for
a non-empty token the message quotes the token. -/
theorem parse_pages_malformed (s : List Char) (k : Nat) (part : List Char)
    (hs : s ≠ []) (hget : (pySplitComma s).get? k = some part)
    (hm : specMalformed part = true)
    (hmin : ∀ j, j < k → specMalformed ((pySplitComma s).getD j []) = false) :
    parse_pages (some s) = .error (partErrMsg part) ∧
      (pyStrip part ≠ [] → List.IsInfix (pyStrip part) (partErrMsg part).toList) := by
  have herr := parseParts_first_error (pySplitComma s) k part hget hm hmin
  constructor
  · simp only [parse_pages]
    rw [if_neg hs, herr]
  · exact (parsePart_error_of_malformed hm).2

/-- C5 witness: `"1,a"` fails with the message identifying token `a`. -/
theorem parse_pages_malformed_witness :
    parse_pages (some "1,a".toList) = .error "Invalid page number: 'a'" :=
  (parse_pages_malformed "1,a".toList 1 "a".toList (by decide) (by decide)
    (by decide) (by decide)).1

theorem pyIntStr_nonneg {s : List Char} (hd : ¬('-' ∈ s)) {n : Int}
    (h : pyIntStr s = some n) : 0 ≤ n := by
  unfold pyIntStr at h
  cases hst : pyStrip s with
  | nil => rw [hst] at h; exact absurd h (by simp)
  | cons c rest =>
    rw [hst] at h
    have hcm : ¬(c = '-') := fun hc => by
      refine hd (mem_of_mem_pyStrip (s := s) ?_)
      rw [hst, ← hc]
      exact List.mem_cons_self c rest
    have h2 : (if c = '+' then (pyUDigits rest).map Int.ofNat
        else if c = '-' then (pyUDigits rest).map (fun n => -(n : Int))
        else (pyUDigits (c :: rest)).map Int.ofNat) = some n := h
    by_cases hcp : c = '+'
    · rw [if_pos hcp] at h2
      obtain ⟨m, _, rfl⟩ := Option.map_eq_some'.mp h2
      exact Int.ofNat_nonneg m
    · rw [if_neg hcp, if_neg hcm] at h2
      obtain ⟨m, _, rfl⟩ := Option.map_eq_some'.mp h2
      exact Int.ofNat_nonneg m

theorem pyRange_nonneg {st en : Int} (h : 0 ≤ st) : ∀ x ∈ pyRange st en, 0 ≤ x := by
  intro x hx
  unfold pyRange at hx
  obtain ⟨m, _, rfl⟩ := List.mem_map.mp hx
  exact add_nonneg h (by exact_mod_cast Nat.zero_le m)

theorem parsePart_nonneg {p : List Char} {l : List Int}
    (h : parsePart p = .ok l) : ∀ x ∈ l, 0 ≤ x := by
  unfold parsePart at h
  by_cases h1 : pyStrip p = []
  · rw [if_pos h1] at h
    exact absurd h (by simp)
  · rw [if_neg h1] at h
    by_cases h2 : '-' ∈ pyStrip p
    · rw [if_pos h2] at h
      by_cases h3 : pyStrip (splitFirstDash (pyStrip p)).1 = [] ∨
          pyStrip (splitFirstDash (pyStrip p)).2 = []
      · rw [if_pos h3] at h
        exact absurd h (by simp)
      · rw [if_neg h3] at h
        cases hsa : pyIntStr (pyStrip (splitFirstDash (pyStrip p)).1) with
        | none =>
          rw [hsa] at h
          exact Except.noConfusion (show Except.error ("Non-integer page range: '" ++
            String.mk (pyStrip p) ++ "'") = Except.ok l from h)
        | some st =>
          rw [hsa] at h
          cases hsb : pyIntStr (pyStrip (splitFirstDash (pyStrip p)).2) with
          | none =>
            rw [hsb] at h
            exact Except.noConfusion (show Except.error ("Non-integer page range: '" ++
              String.mk (pyStrip p) ++ "'") = Except.ok l from h)
          | some en =>
            rw [hsb] at h
            have h' : (if en < st then
                Except.error ("Invalid page range (end < start): '" ++
                  String.mk (pyStrip p) ++ "'")
              else Except.ok (pyRange st en)) = Except.ok l := h
            by_cases hlt : en < st
            · rw [if_pos hlt] at h'
              exact absurd h' (by simp)
            · rw [if_neg hlt] at h'
              have hst0 : 0 ≤ st := by
                refine pyIntStr_nonneg ?_ hsa
                exact fun hmem =>
                  dash_notMem_splitFirstDash_fst (pyStrip p) (mem_of_mem_pyStrip hmem)
              obtain rfl : pyRange st en = l := by simpa using h'
              exact pyRange_nonneg hst0
    · rw [if_neg h2] at h
      cases hpi : pyIntStr (pyStrip p) with
      | none =>
        rw [hpi] at h
        exact Except.noConfusion (show Except.error ("Invalid page number: '" ++
          String.mk (pyStrip p) ++ "'") = Except.ok l from h)
      | some n =>
        rw [hpi] at h
        obtain rfl : [n] = l := by
          have h2 : Except.ok (ε := String) [n] = Except.ok l := h
          simpa using h2
        intro x hx
        obtain rfl : x = n := by simpa using hx
        exact pyIntStr_nonneg h2 hpi

theorem parseParts_nonneg : ∀ (parts : List (List Char)) (l : List Int),
    parseParts parts = .ok l → ∀ x ∈ l, 0 ≤ x
  | [], l, h => by
    obtain rfl : ([] : List Int) = l := by
      have h2 : Except.ok (ε := String) ([] : List Int) = Except.ok l := h
      simpa using h2
    intro x hx
    simp at hx
  | p :: ps, l, h => by
    revert h
    simp only [parseParts]
    cases hp : parsePart p with
    | error e =>
      intro h
      exact Except.noConfusion (show Except.error e = Except.ok l from h)
    | ok l1 =>
      cases hps : parseParts ps with
      | error e =>
        intro h
        exact Except.noConfusion (show Except.error e = Except.ok l from h)
      | ok l2 =>
        intro h
        obtain rfl : l1 ++ l2 = l := by
          have h2 : Except.ok (ε := String) (l1 ++ l2) = Except.ok l := h
          simpa using h2
        intro x hx
        rcases List.mem_append.mp hx with h1 | h2
        · exact parsePart_nonneg hp x h1
        · exact parseParts_nonneg ps l2 hps x h2

/-- C6: whenever `parse_pages` succeeds with a list, every page index in the
list is non-negative. -/
theorem parse_pages_nonneg (ps : Option (List Char)) (l : List Int)
    (h : parse_pages ps = .ok (some l)) : ∀ x ∈ l, 0 ≤ x := by
  cases ps with
  | none =>
    have h' : (Except.ok (α := Option (List Int)) (ε := String) none) = .ok (some l) := h
    simp at h'
  | some s =>
    revert h
    simp only [parse_pages]
    by_cases hs : s = []
    · rw [if_pos hs]
      intro h
      simp at h
    · rw [if_neg hs]
      cases hpp : parseParts (pySplitComma s) with
      | error e =>
        intro h
        exact Except.noConfusion (show Except.error e = Except.ok (some l) from h)
      | ok l0 =>
        intro h
        obtain rfl : l0 = l := by
          have h2 : Except.ok (ε := String) (some l0) = Except.ok (some l) := h
          simpa using h2
        exact parseParts_nonneg (pySplitComma s) _ hpp

/-- C6 witness: a concrete parse whose entries the theorem bounds below. -/
theorem parse_pages_nonneg_witness :
    parse_pages (some "1,3-5,7".toList) = .ok (some [1, 3, 4, 5, 7]) ∧ (0 : Int) ≤ 7 :=
  ⟨by decide, parse_pages_nonneg (some "1,3-5,7".toList) [1, 3, 4, 5, 7] (by decide)
    7 (by decide)⟩

/-! ## OCR response data model (spec section 3, consumed by formatter.py) -/

/-- An image entry of a page (`image.get("id", ...)`, `"image_base64" in image`). -/
structure OCRImage where
  id : Option String := none
  image_base64 : Option String := none
deriving DecidableEq

/-- A page entry (`page.get("index", 0)`, `page.get("markdown", "")`,
`"images" in page`). -/
structure OCRPage where
  index : Option Int := none
  markdown : Option String := none
  images : Option (List OCRImage) := none
deriving DecidableEq

/-- The OCR API response (`"error" in ocr_response`,
`ocr_response.get("pages", [])`). -/
structure OCRResponse where
  error : Option String := none
  pages : Option (List OCRPage) := none
deriving DecidableEq

/-! ## base64 decoding (`base64.b64decode`) -/

/-- Value of a standard-alphabet base64 character. -/
def b64CharVal (c : Char) : Option Nat :=
  if 'A' ≤ c ∧ c ≤ 'Z' then some (c.toNat - 65)
  else if 'a' ≤ c ∧ c ≤ 'z' then some (c.toNat - 97 + 26)
  else if '0' ≤ c ∧ c ≤ '9' then some (c.toNat - 48 + 52)
  else if c = '+' then some 62
  else if c = '/' then some 63
  else none

/-- Groups of four base64 characters decoded to bytes, padding allowed only
in the final group; `none` models `binascii.Error` (invalid padding). -/
def b64Groups : List Char → Option (List Nat)
  | [] => some []
  | [a, b, '=', '='] => do
    let va ← b64CharVal a
    let vb ← b64CharVal b
    pure [va * 4 + vb / 16]
  | [a, b, c, '='] => do
    let va ← b64CharVal a
    let vb ← b64CharVal b
    let vc ← b64CharVal c
    pure [va * 4 + vb / 16, (vb % 16) * 16 + vc / 4]
  | a :: b :: c :: d :: rest => do
    let va ← b64CharVal a
    let vb ← b64CharVal b
    let vc ← b64CharVal c
    let vd ← b64CharVal d
    let tail ← b64Groups rest
    pure ([va * 4 + vb / 16, (vb % 16) * 16 + vc / 4, (vc % 4) * 64 + vd] ++ tail)
  | _ => none

/-- Python `base64.b64decode` with the default `validate=False`: characters
outside the alphabet are discarded, then the remaining four-character groups
are decoded; `none` models `binascii.Error` on invalid padding. -/
def b64decode (s : String) : Option (List Nat) :=
  b64Groups (s.toList.filter (fun c => (b64CharVal c).isSome || c = '='))

/-! ## `format_as_markdown` (formatter.py, lines 20-86) -/

/-- A completed filesystem effect of `format_as_markdown`: a
`Path.mkdir(parents=True, exist_ok=True)` call, or a completed image write. -/
inductive FsEffect
  | mkdirP (dir : String)
  | writeFile (path : String) (bytes : List Nat)
deriving DecidableEq

/-- Ambient host behaviour for the effectful branches: whether opening or
writing a path raises (and the exception message), the value of
`os.path.relpath(path, os.getcwd())`, the message of a `binascii` decode
error, and whether reportlab image layout raises for given bytes. -/
structure Env where
  writeErr : String → Option String := fun _ => none
  relpath : String → String := fun p => p
  decodeMsg : String → String := fun _ => "Invalid base64-encoded string"
  rlImageErr : List Nat → Option String := fun _ => none

/-- Python truthiness of an optional string (`None` and `""` are falsy). -/
def pyTruthy : Option String → Bool
  | none => false
  | some s => s ≠ ""

/-- Truthiness of `"images" in page and page["images"]`. -/
def imagesTruthy : Option (List OCRImage) → Bool
  | none => false
  | some l => l ≠ []

/-- `img_dir / f"page_{page_index}_image_{i}.png"`. -/
def imgPath (dir : String) (page_index : Int) (i : Nat) : String :=
  dir ++ "/page_" ++ toString page_index ++ "_image_" ++ toString i ++ ".png"

/-- The body of the image loop of `format_as_markdown` (lines 58-81) for the
image at 0-based position `i`: the emitted markdown pieces and the completed
filesystem effects.  The source also binds an `image_id` that it never uses;
the binding is omitted here.  An image without `image_base64` emits nothing. -/
def mdImageStep (env : Env) (output_dir : Option String) (page_index : Int)
    (i : Nat) (image : OCRImage) : List String × List FsEffect :=
  match image.image_base64 with
  | none => ([], [])
  | some data =>
    if pyTruthy output_dir then
      let dir := output_dir.getD ""
      let path := imgPath dir page_index i
      match b64decode data with
      | none => (["\n[Error saving image: " ++ env.decodeMsg data ++ "]\n"], [.mkdirP dir])
      | some bytes =>
        match env.writeErr path with
        | some msg => (["\n[Error saving image: " ++ msg ++ "]\n"], [.mkdirP dir])
        | none =>
          (["\n![Image " ++ toString (i + 1) ++ " from page " ++
              toString (page_index + 1) ++ "](" ++ env.relpath path ++ ")\n"],
            [.mkdirP dir, .writeFile path bytes])
    else
      (["\n![Image " ++ toString (i + 1) ++ " from page " ++ toString (page_index + 1) ++
          "](data:image/png;base64," ++ data ++ ")\n"], [])

/-- The `for i, image in enumerate(images)` loop, from counter `i`. -/
def mdImagesLoop (env : Env) (output_dir : Option String) (page_index : Int) :
    Nat → List OCRImage → List String × List FsEffect
  | _, [] => ([], [])
  | i, image :: rest =>
    let s := mdImageStep env output_dir page_index i image
    let r := mdImagesLoop env output_dir page_index (i + 1) rest
    (s.1 ++ r.1, s.2 ++ r.2)

/-- The page loop of `format_as_markdown` (lines 45-84): page header, raw
content, image pieces when requested and present, and the separator appended
after every page. -/
def mdPagesLoop (env : Env) (include_images : Bool) (output_dir : Option String) :
    List OCRPage → List String × List FsEffect
  | [] => ([], [])
  | page :: rest =>
    let page_index := page.index.getD 0
    let page_content := page.markdown.getD ""
    let imgs :=
      if include_images ∧ imagesTruthy page.images then
        mdImagesLoop env output_dir page_index 0 (page.images.getD [])
      else ([], [])
    let r := mdPagesLoop env include_images output_dir rest
    (("## Page " ++ toString (page_index + 1) ++ "\n") :: page_content ::
        (imgs.1 ++ "\n---\n" :: r.1), imgs.2 ++ r.2)

/-- `format_as_markdown` (formatter.py lines 20-86): error and empty-pages
short circuits, then the page loop joined with newlines; paired with the
list of completed filesystem effects. -/
def format_as_markdown (env : Env) (ocr_response : OCRResponse)
    (include_images : Bool) (output_dir : Option String) :
    String × List FsEffect :=
  match ocr_response.error with
  | some e => ("Error: " ++ e, [])
  | none =>
    let pages := ocr_response.pages.getD []
    if pages = [] then ("No content found in document.", [])
    else
      let r := mdPagesLoop env include_images output_dir pages
      ("\n".intercalate r.1, r.2)

/-- `format_as_text` (formatter.py lines 89-121): error and empty-pages
short circuits, then per page a separator line, the content with every `#`
and `*` removed, and a blank chunk, joined with newlines. -/
def format_as_text (ocr_response : OCRResponse) : String :=
  match ocr_response.error with
  | some e => "Error: " ++ e
  | none =>
    let pages := ocr_response.pages.getD []
    if pages = [] then "No content found in document."
    else
      "\n".intercalate (pages.flatMap (fun page =>
        let page_index := page.index.getD 0
        let page_content := ((page.markdown.getD "").replace "#" "").replace "*" ""
        ["--- Page " ++ toString (page_index + 1) ++ " ---\n", page_content, "\n\n"]))

/-! ## C7: the error short circuit of the markdown and text formatters -/

/-- C7: with `error` set to `X`, `format_as_markdown` and `format_as_text`
both return exactly `"Error: X"`, regardless of every other field. -/
theorem error_formats_exact (env : Env) (r : OCRResponse) (X : String)
    (inc : Bool) (dir : Option String) (h : r.error = some X) :
    (format_as_markdown env r inc dir).1 = "Error: " ++ X ∧
      format_as_text r = "Error: " ++ X := by
  unfold format_as_markdown format_as_text
  rw [h]
  exact ⟨rfl, rfl⟩

/-- C7 witness: an error result with a populated pages sequence. -/
theorem error_formats_exact_witness :
    (format_as_markdown {} ⟨some "boom", some [⟨some 0, some "content", none⟩]⟩
        true none).1 = "Error: boom" ∧
      format_as_text ⟨some "boom", some [⟨some 0, some "content", none⟩]⟩ =
        "Error: boom" :=
  error_formats_exact {} ⟨some "boom", some [⟨some 0, some "content", none⟩]⟩
    "boom" true none rfl

/-! ## C10: `include_images = false` is pure and image-free -/

/-- The markdown output as a function of the error field and the pages'
`(index, content)` pairs alone. -/
def md_layout_noimages (r : OCRResponse) : String :=
  match r.error with
  | some e => "Error: " ++ e
  | none =>
    let ps := (r.pages.getD []).map (fun page => (page.index.getD 0, page.markdown.getD ""))
    if ps = [] then "No content found in document."
    else
      "\n".intercalate (ps.flatMap (fun q =>
        ["## Page " ++ toString (q.1 + 1) ++ "\n", q.2, "\n---\n"]))

theorem mdPagesLoop_noimages (env : Env) (dir : Option String) :
    ∀ pages : List OCRPage,
    mdPagesLoop env false dir pages =
      (((pages.map (fun page => (page.index.getD 0, page.markdown.getD ""))).flatMap
        (fun q => ["## Page " ++ toString (q.1 + 1) ++ "\n", q.2, "\n---\n"])), [])
  | [] => rfl
  | page :: rest => by
    simp only [mdPagesLoop, mdPagesLoop_noimages env dir rest, List.map_cons,
      List.flatMap_cons]
    simp

/-- C10: with `include_images = false`, `format_as_markdown` performs no
filesystem effect whatever the environment and output directory, and its
output is determined by the error field and each page's index and content
alone — in particular no image link, data URI or image error marker is
emitted. -/
theorem format_as_markdown_noimages (env : Env) (r : OCRResponse)
    (dir : Option String) :
    format_as_markdown env r false dir = (md_layout_noimages r, []) := by
  unfold format_as_markdown md_layout_noimages
  cases herr : r.error with
  | some e => rfl
  | none =>
    simp only [mdPagesLoop_noimages env dir (r.pages.getD [])]
    by_cases hp : r.pages.getD [] = []
    · rw [if_pos hp, if_pos (by rw [hp]; rfl)]
    · rw [if_neg hp, if_neg (by simpa using hp)]

/-! ## C1: page layout of `format_as_markdown` -/

/-- The layout claim C1 describes: heading then verbatim content per page,
with the horizontal rule only between consecutive pages (image-free pages). -/
def md_layout_sep_between (ps : List (Int × String)) : String :=
  "\n".intercalate
    (List.intercalate ["\n---\n"]
      (ps.map (fun q => ["## Page " ++ toString (q.1 + 1) ++ "\n", q.2])))

/-- C1 counterexample: on a single error-free page with content `"x"` and no
images, the code emits a separator block after the final page, so the output
differs from the separator-only-between-pages layout the claim states. -/
theorem md_trailing_separator_counterexample :
    (format_as_markdown {} ⟨none, some [⟨some 0, some "x", none⟩]⟩ true none).1 =
      "## Page 1\n\nx\n\n---\n" ∧
      md_layout_sep_between [(0, "x")] = "## Page 1\n\nx" ∧
      ("## Page 1\n\nx\n\n---\n" : String) ≠ "## Page 1\n\nx" :=
  ⟨by decide, by decide, by decide⟩

/-- The markdown layout as amended: heading, verbatim content, one image
piece per image bearing data (when images are requested and present), and
the horizontal rule after every page, including the final one. -/
def md_layout_amended (env : Env) (include_images : Bool) (output_dir : Option String)
    (pages : List OCRPage) : String :=
  "\n".intercalate (pages.flatMap (fun page =>
    let page_index := page.index.getD 0
    ["## Page " ++ toString (page_index + 1) ++ "\n", page.markdown.getD ""] ++
      (if include_images ∧ imagesTruthy page.images then
        ((page.images.getD []).enum.flatMap
          (fun q => (mdImageStep env output_dir page_index q.1 q.2).1))
      else []) ++ ["\n---\n"]))

theorem mdImagesLoop_fst_enum (env : Env) (dir : Option String) (pidx : Int) :
    ∀ (imgs : List OCRImage) (i : Nat),
    (mdImagesLoop env dir pidx i imgs).1 =
      (List.enumFrom i imgs).flatMap (fun q => (mdImageStep env dir pidx q.1 q.2).1)
  | [], _ => rfl
  | image :: rest, i => by
    simp only [mdImagesLoop, List.enumFrom, List.flatMap_cons,
      mdImagesLoop_fst_enum env dir pidx rest (i + 1)]

theorem mdPagesLoop_fst (env : Env) (inc : Bool) (dir : Option String) :
    ∀ pages : List OCRPage,
    (mdPagesLoop env inc dir pages).1 =
      pages.flatMap (fun page =>
        let page_index := page.index.getD 0
        ["## Page " ++ toString (page_index + 1) ++ "\n", page.markdown.getD ""] ++
          (if inc ∧ imagesTruthy page.images then
            ((page.images.getD []).enum.flatMap
              (fun q => (mdImageStep env dir page_index q.1 q.2).1))
          else []) ++ ["\n---\n"])
  | [] => rfl
  | page :: rest => by
    simp only [mdPagesLoop, List.flatMap_cons, mdPagesLoop_fst env inc dir rest]
    by_cases hc : inc = true ∧ imagesTruthy page.images = true
    · rw [if_pos hc, if_pos hc, mdImagesLoop_fst_enum]
      simp [List.enum]
    · rw [if_neg hc, if_neg hc]
      simp

/-- C1 as amended: for every error-free result with a non-empty pages
sequence, the markdown output is, page by page in order, the level-2 heading
`"## Page {index+1}"`, the raw content verbatim, one image piece per image
bearing data when `include_images` is set and the page has images, and the
horizontal-rule separator after every page, including the final one. -/
theorem format_as_markdown_layout (env : Env) (r : OCRResponse) (inc : Bool)
    (dir : Option String) (pages : List OCRPage)
    (herr : r.error = none) (hp : r.pages = some pages) (hne : pages ≠ []) :
    (format_as_markdown env r inc dir).1 = md_layout_amended env inc dir pages := by
  unfold format_as_markdown md_layout_amended
  rw [herr, hp]
  simp only [Option.getD_some]
  rw [if_neg hne]
  rw [mdPagesLoop_fst]

/-- C1 amended witness: one page with one embedded image, one dataless
image, and one page without images. -/
theorem format_as_markdown_layout_witness :
    (format_as_markdown {}
        ⟨none, some [⟨some 0, some "alpha", some [⟨some "img1", some "AAAA"⟩, ⟨some "img2", none⟩]⟩,
          ⟨some 3, some "beta", none⟩]⟩ true none).1 =
      md_layout_amended {} true none
        [⟨some 0, some "alpha", some [⟨some "img1", some "AAAA"⟩, ⟨some "img2", none⟩]⟩,
          ⟨some 3, some "beta", none⟩] :=
  format_as_markdown_layout {} _ true none _ rfl rfl (by decide)

/-! ## C9: image writes store exactly the decoded payload -/

theorem mdImageStep_write (env : Env) (d : String) (pidx : Int) (i : Nat)
    (image : OCRImage) (data : String) (bytes : List Nat)
    (hdata : image.image_base64 = some data) (hd : d ≠ "")
    (hdec : b64decode data = some bytes)
    (hw : env.writeErr (imgPath d pidx i) = none) :
    (mdImageStep env (some d) pidx i image).2 =
      [.mkdirP d, .writeFile (imgPath d pidx i) bytes] := by
  simp only [mdImageStep, hdata, Option.getD_some]
  rw [if_pos (show pyTruthy (some d) = true from by simpa [pyTruthy] using hd)]
  simp only [hdec, hw]

theorem mdImagesLoop_snd_mem (env : Env) (dir : Option String) (pidx : Int) :
    ∀ (imgs : List OCRImage) (i j : Nat) (image : OCRImage) (eff : FsEffect),
    imgs.get? j = some image → eff ∈ (mdImageStep env dir pidx (i + j) image).2 →
    eff ∈ (mdImagesLoop env dir pidx i imgs).2
  | [], _, j, _, _, hget, _ => by simp at hget
  | img0 :: rest, i, 0, image, eff, hget, hmem => by
    obtain rfl : img0 = image := by simpa using hget
    simp only [mdImagesLoop, List.mem_append]
    left
    simpa using hmem
  | img0 :: rest, i, j + 1, image, eff, hget, hmem => by
    simp only [mdImagesLoop, List.mem_append]
    right
    refine mdImagesLoop_snd_mem env dir pidx rest (i + 1) j image eff
      (by simpa using hget) ?_
    have harith : i + 1 + j = i + (j + 1) := by omega
    rw [harith]
    exact hmem

theorem mdPagesLoop_snd_mem (env : Env) (inc : Bool) (dir : Option String) :
    ∀ (pages : List OCRPage) (k : Nat) (page : OCRPage) (eff : FsEffect),
    pages.get? k = some page → inc = true → imagesTruthy page.images = true →
    eff ∈ (mdImagesLoop env dir (page.index.getD 0) 0 (page.images.getD [])).2 →
    eff ∈ (mdPagesLoop env inc dir pages).2
  | [], k, _, _, hget, _, _, _ => by simp at hget
  | p0 :: rest, 0, page, eff, hget, hinc, htr, hmem => by
    obtain rfl : p0 = page := by simpa using hget
    simp only [mdPagesLoop, List.mem_append]
    left
    rw [if_pos ⟨hinc, htr⟩]
    exact hmem
  | p0 :: rest, k + 1, page, eff, hget, hinc, htr, hmem => by
    simp only [mdPagesLoop, List.mem_append]
    right
    exact mdPagesLoop_snd_mem env inc dir rest k page eff (by simpa using hget)
      hinc htr hmem

/-- C9: when an image directory `d` is given and the write succeeds, the
effect list of `format_as_markdown` contains a write of exactly the
base64-decoding of the image's payload at
`d/page_{pageIndex}_image_{i}.png` — the decoded payload round-trips to the
bytes on disk. -/
theorem md_image_write_roundtrip (env : Env) (r : OCRResponse) (d : String)
    (pages : List OCRPage) (k : Nat) (page : OCRPage) (imgs : List OCRImage)
    (i : Nat) (image : OCRImage) (data : String) (bytes : List Nat)
    (herr : r.error = none) (hp : r.pages = some pages)
    (hpage : pages.get? k = some page) (himgs : page.images = some imgs)
    (himg : imgs.get? i = some image) (hdata : image.image_base64 = some data)
    (hd : d ≠ "") (hdec : b64decode data = some bytes)
    (hw : env.writeErr (imgPath d (page.index.getD 0) i) = none) :
    FsEffect.writeFile (imgPath d (page.index.getD 0) i) bytes ∈
      (format_as_markdown env r true (some d)).2 := by
  have hne : pages ≠ [] := by
    intro hnil
    rw [hnil] at hpage
    simp at hpage
  have himgs_ne : imgs ≠ [] := by
    intro hnil
    rw [hnil] at himg
    simp at himg
  unfold format_as_markdown
  rw [herr, hp]
  simp only [Option.getD_some]
  rw [if_neg hne]
  refine mdPagesLoop_snd_mem env true (some d) pages k page _ hpage rfl ?_ ?_
  · rw [himgs]
    simpa [imagesTruthy] using himgs_ne
  · rw [himgs]
    simp only [Option.getD_some]
    refine mdImagesLoop_snd_mem env (some d) (page.index.getD 0) imgs 0 i image _ himg ?_
    rw [Nat.zero_add, mdImageStep_write env d (page.index.getD 0) i image data bytes
      hdata hd hdec hw]
    simp

/-- C9 witness: payload `"AAAA"` decodes to three zero bytes, which are the
bytes recorded as written to `imgs/page_0_image_0.png`. -/
theorem md_image_write_roundtrip_witness :
    FsEffect.writeFile "imgs/page_0_image_0.png" [0, 0, 0] ∈
      (format_as_markdown {}
        ⟨none, some [⟨some 0, some "c", some [⟨none, some "AAAA"⟩]⟩]⟩
        true (some "imgs")).2 := by
  have h := md_image_write_roundtrip {}
    ⟨none, some [⟨some 0, some "c", some [⟨none, some "AAAA"⟩]⟩]⟩ "imgs"
    [⟨some 0, some "c", some [⟨none, some "AAAA"⟩]⟩] 0
    ⟨some 0, some "c", some [⟨none, some "AAAA"⟩]⟩ [⟨none, some "AAAA"⟩] 0
    ⟨none, some "AAAA"⟩ "AAAA" [0, 0, 0] rfl rfl rfl rfl rfl rfl
    (by decide) (by decide) rfl
  simpa using h

/-! ## `format_as_pdf` (formatter.py, lines 124-226) -/

/-- A reportlab flowable of the generated document: a paragraph with a named
style, a vertical spacer (height in hundredths of an inch), or an image. -/
inductive Flowable
  | para (text : String) (style : String)
  | spacer (hCenti : Nat)
  | image (bytes : List Nat)
deriving DecidableEq

/-- A Python exception escaping `format_as_pdf`. -/
inductive PyErr
  | valueError (msg : String)
  | indexError (msg : String)
deriving DecidableEq

/-- Python `s.split("\\n\\n")`: left-to-right non-overlapping split of the
page content into blank-line-delimited blocks. -/
def pySplitNN : List Char → List (List Char)
  | [] => [[]]
  | '\n' :: '\n' :: rest => [] :: pySplitNN rest
  | c :: rest =>
    match pySplitNN rest with
    | a :: t => (c :: a) :: t
    | [] => [[c]]

/-- Count of leading `'#'` characters. -/
def countLeadingHash : List Char → Nat
  | [] => 0
  | c :: rest => if c = '#' then countLeadingHash rest + 1 else 0

/-- One iteration of the paragraph loop of `format_as_pdf` (lines 184-201):
a block whose stripped text starts with `#` renders as a heading whose level
is the count of leading `#` (level 1, level 2, or the collapsed `Heading3`),
any other block as a normal paragraph plus a spacer.  The source counts the
leading `#` with `while para.strip()[header_level] == '#'`, an unguarded
indexing that raises `IndexError` when the stripped block consists of `#`
characters only. -/
def pdfParaStep (para : String) : Except PyErr (List Flowable) :=
  let stripped := pyStrip para.toList
  if stripped.head? = some '#' then
    let header_level := countLeadingHash stripped
    if header_level = stripped.length then
      .error (.indexError "string index out of range")
    else
      let header_text := String.mk (pyStrip (stripped.drop header_level))
      if header_level = 1 then .ok [.para header_text "Heading1"]
      else if header_level = 2 then .ok [.para header_text "Heading2"]
      else .ok [.para header_text "Heading3"]
  else .ok [.para para "Normal", .spacer 10]

/-- The paragraph loop over the blocks of one page; the first raised
exception aborts the build. -/
def pdfParasLoop : List String → Except PyErr (List Flowable)
  | [] => .ok []
  | p :: rest =>
    match pdfParaStep p with
    | .error e => .error e
    | .ok fs =>
      match pdfParasLoop rest with
      | .error e => .error e
      | .ok rs => .ok (fs ++ rs)

/-- The image loop body of `format_as_pdf` (lines 206-220): decode and place
the image with an italic caption; a per-image decode or layout failure is
caught and replaced by an italic error line. -/
def pdfImageStep (env : Env) (pidx : Int) (i : Nat) (image : OCRImage) :
    List Flowable :=
  match image.image_base64 with
  | none => []
  | some data =>
    match b64decode data with
    | none => [.para ("Error processing image: " ++ env.decodeMsg data) "Italic"]
    | some bytes =>
      match env.rlImageErr bytes with
      | some msg => [.para ("Error processing image: " ++ msg) "Italic"]
      | none =>
        [.spacer 20, .image bytes,
          .para ("Image " ++ toString (i + 1) ++ " from page " ++
            toString (pidx + 1)) "Italic",
          .spacer 20]

/-- The `for i, image in enumerate(images)` loop of `format_as_pdf`. -/
def pdfImagesLoop (env : Env) (pidx : Int) : Nat → List OCRImage → List Flowable
  | _, [] => []
  | i, image :: rest =>
    pdfImageStep env pidx i image ++ pdfImagesLoop env pidx (i + 1) rest

/-- The page loop of `format_as_pdf` (lines 173-223): page header and
spacer, the blank-line-delimited blocks, the images when requested, and a
trailing spacer per page. -/
def pdfPagesLoop (env : Env) (include_images : Bool) :
    List OCRPage → Except PyErr (List Flowable)
  | [] => .ok []
  | page :: rest =>
    let page_index := page.index.getD 0
    let page_content := page.markdown.getD ""
    match pdfParasLoop ((pySplitNN page_content.toList).map String.mk) with
    | .error e => .error e
    | .ok paras =>
      let imgs :=
        if include_images ∧ imagesTruthy page.images then
          pdfImagesLoop env page_index 0 (page.images.getD [])
        else []
      match pdfPagesLoop env include_images rest with
      | .error e => .error e
      | .ok rs =>
        .ok (([.para ("Page " ++ toString (page_index + 1)) "PageHeader", .spacer 20] ++
          paras ++ imgs ++ [.spacer 50]) ++ rs)

/-- The message of the `ValueError` that `format_as_pdf` raises up front. -/
def pdfErrMsg (r : OCRResponse) : String :=
  match r.error with
  | some e => "Error in OCR response: " ++ e
  | none => "No content found in document."

/-- `format_as_pdf` (formatter.py lines 124-226): raises `ValueError` on an
error result or an empty pages sequence; otherwise builds the flowable
content and only then writes the document (`doc.build(content)` is the sole
file effect), returned as the pair of the output path and the built
content — a file exists at `output_path` exactly when the result is `ok`. -/
def format_as_pdf (env : Env) (ocr_response : OCRResponse) (output_path : String)
    (include_images : Bool) : Except PyErr (String × List Flowable) :=
  match ocr_response.error with
  | some e => .error (.valueError ("Error in OCR response: " ++ e))
  | none =>
    let pages := ocr_response.pages.getD []
    if pages = [] then .error (.valueError "No content found in document.")
    else
      match pdfPagesLoop env include_images pages with
      | .error e => .error e
      | .ok content => .ok (output_path, content)

/-- C8: on an error result or an empty pages sequence, `format_as_pdf`
raises a `ValueError`; as the document is written only on the `ok` path, no
output file is created or left behind. -/
theorem format_as_pdf_strict (env : Env) (r : OCRResponse) (path : String)
    (inc : Bool) (h : r.error.isSome = true ∨ r.pages.getD [] = []) :
    format_as_pdf env r path inc = .error (.valueError (pdfErrMsg r)) := by
  unfold format_as_pdf pdfErrMsg
  cases herr : r.error with
  | some e => rfl
  | none =>
    rcases h with h | h
    · rw [herr] at h
      simp at h
    · rw [if_pos h]

/-- C8 witness: both failure modes at concrete inputs. -/
theorem format_as_pdf_strict_witness :
    format_as_pdf {} ⟨some "boom", some [⟨some 0, some "c", none⟩]⟩ "out.pdf" true =
      .error (.valueError "Error in OCR response: boom") ∧
    format_as_pdf {} ⟨none, some []⟩ "out.pdf" true =
      .error (.valueError "No content found in document.") :=
  ⟨format_as_pdf_strict {} ⟨some "boom", some [⟨some 0, some "c", none⟩]⟩
      "out.pdf" true (Or.inl rfl),
    format_as_pdf_strict {} ⟨none, some []⟩ "out.pdf" true (Or.inr rfl)⟩

/-- C3: heading blocks render by leading-`#` count (1, 2, collapsed ≥ 3),
other blocks render as body paragraphs — but on the failing input, a block
consisting solely of `#` characters, the unguarded indexing raises
`IndexError` and aborts the whole document instead of rendering a heading. -/
theorem pdf_heading_blocks_and_crash :
    pdfParaStep "# Title" = .ok [.para "Title" "Heading1"] ∧
    pdfParaStep "## Sub" = .ok [.para "Sub" "Heading2"] ∧
    pdfParaStep "#### Deep" = .ok [.para "Deep" "Heading3"] ∧
    pdfParaStep "plain text" = .ok [.para "plain text" "Normal", .spacer 10] ∧
    format_as_pdf {} ⟨none, some [⟨some 0, some "#", none⟩]⟩ "out.pdf" true =
      .error (.indexError "string index out of range") :=
  ⟨by decide, by decide, by decide, by decide, by decide⟩

/-! ## CLI output-format resolution (cli.py, lines 170-172) -/

/-- Python `str.lower` on one character (ASCII behaviour). -/
def pyLowerC (c : Char) : Char :=
  if 'A' ≤ c ∧ c ≤ 'Z' then Char.ofNat (c.toNat + 32) else c

/-- Python `s.lower()` (ASCII behaviour). -/
def pyLower (s : String) : String := String.mk (s.toList.map pyLowerC)

/-- Python `s.endswith(suff)`. -/
def pyEndsWith (s suff : String) : Bool :=
  (s.toList.reverse.take suff.toList.length) = suff.toList.reverse

/-- The format upgrade of `main` (cli.py lines 170-172): the format value is
replaced by `"pdf"` exactly when the output path is truthy, lowercases to
something ending in `".pdf"`, and the current format value is `"markdown"`. -/
def resolve_format (output : Option String) (format : String) : String :=
  if pyTruthy output ∧ pyEndsWith (pyLower (output.getD "")) ".pdf" ∧ format = "markdown"
  then "pdf" else format

/-- The CLI's effective output format: the `-f` option value when given
(click default `"markdown"` otherwise), passed through the upgrade. -/
def cli_format (output : Option String) (userFormat : Option String) : String :=
  resolve_format output (userFormat.getD "markdown")

/-- C2 counterexample: with `-f markdown` given explicitly and output
`out.pdf`, the code still upgrades the format to pdf, though the claim says
an explicitly selected markdown is not upgraded. -/
theorem cli_format_explicit_markdown_upgraded :
    cli_format (some "out.pdf") (some "markdown") = "pdf" ∧
      ("pdf" : String) ≠ "markdown" :=
  ⟨by decide, by decide⟩

/-- C2 as amended: provided the user did not select pdf outright, the
resolved format is pdf exactly when the output path is truthy and lowercases
to end in `".pdf"` and the effective format is markdown — whether markdown
was the default or explicitly selected. -/
theorem cli_format_upgrade_iff (output : Option String) (userFormat : Option String)
    (h : userFormat.getD "markdown" ≠ "pdf") :
    cli_format output userFormat = "pdf" ↔
      (pyTruthy output = true ∧ pyEndsWith (pyLower (output.getD "")) ".pdf" = true ∧
        userFormat.getD "markdown" = "markdown") := by
  unfold cli_format resolve_format
  by_cases hc : pyTruthy output = true ∧ pyEndsWith (pyLower (output.getD "")) ".pdf" = true ∧
      userFormat.getD "markdown" = "markdown"
  · rw [if_pos hc]
    simp [hc]
  · rw [if_neg hc]
    exact ⟨fun hf => absurd hf h, fun hcc => absurd hcc hc⟩

/-- C2 amended witness: a defaulted format with an upper-case `.PDF` output
path is upgraded. -/
theorem cli_format_upgrade_iff_witness :
    cli_format (some "doc.PDF") none = "pdf" :=
  (cli_format_upgrade_iff (some "doc.PDF") none (by decide)).mpr (by decide)

end MistOCR
